import Mathlib

/-!
Verification of the podcast-to-text job-lifecycle core against its design
specification.

The development shallowly embeds the Python sources:

* `src/db.py`      — the SQLite state store (two tables, `processed_episodes`
  and `pending_episodes`, each with a `UNIQUE(episode_id, channel)`
  constraint).  A table is modelled as a list of rows; `INSERT OR REPLACE`
  removes every row with the conflicting key and prepends the new row, `SELECT`
  point lookups become `List.any` / `List.filter`, exactly mirroring the SQL
  `WHERE episode_id = ? AND channel = ?` conditions.  `datetime.now()` is
  modelled by an explicit `now : Nat` argument.
* `src/submit.py`  — the per-episode submission step shared by
  `process_single_rss` and the inner loop of `process_config_file`.  The
  remote call `submit_transcription` is modelled as an oracle
  `String → String → Option String`; `none` models the call raising.
* `src/query.py`   — `parse_duration`, and the per-pending-job body of `main`
  (the reconcile step) together with its counting loop.  The remote calls
  `check_transcription_status`, `get_transcription_result`, the file-writing
  `save_output`, and `delete_transcription` are modelled as an `ExtService`
  oracle; `none` (resp. `deleteRaises = true`) models the call raising.
* `src/transcriber.py` — `format_time`, `segments_to_markdown`,
  `segments_to_json`, and `Transcriber._parse_duration`.
* `src/utils.py`   — `sanitize_filename`.

Python floats (segment timestamps, durations) are modelled as exact rationals
`ℚ`; every concrete value evaluated in this development is a small dyadic
number on which IEEE double arithmetic is exact.  Python's `float(...)`
string-to-number builtin is left abstract (an oracle parameter) where it
occurs.  Python `int` is `ℤ`.
-/

/-- Row of the `processed_episodes` table (src/db.py, `CREATE TABLE`), minus
the auto-increment surrogate `id` which no query of the program inspects. -/
structure ProcessedRow where
  episode_id : String
  channel : String
  title : String
  processed_at : Nat
  status : String
  output_path : String
deriving DecidableEq

/-- Row of the `pending_episodes` table (src/db.py, `CREATE TABLE`), minus the
auto-increment surrogate `id`. -/
structure PendingRow where
  episode_id : String
  channel : String
  title : String
  audio_url : String
  transcription_id : String
  submitted_at : Nat
  published : Option Nat
  duration : Option String
deriving DecidableEq

/-- The two tables managed by `Database` in src/db.py. -/
structure Database where
  processed : List ProcessedRow
  pending : List PendingRow
deriving DecidableEq

/-- The SQL condition `episode_id = ? AND channel = ?` on a processed row. -/
def ProcessedRow.sameKey (r : ProcessedRow) (eid ch : String) : Bool :=
  r.episode_id == eid && r.channel == ch

/-- The SQL condition `episode_id = ? AND channel = ?` on a pending row. -/
def PendingRow.sameKey (r : PendingRow) (eid ch : String) : Bool :=
  r.episode_id == eid && r.channel == ch

/-- `Database.is_processed` (src/db.py:88-95): `SELECT 1 FROM
processed_episodes WHERE episode_id = ? AND channel = ? AND status =
'success'` — true iff some row matches. -/
def Database.is_processed (db : Database) (episode_id channel : String) : Bool :=
  db.processed.any (fun r => r.sameKey episode_id channel && r.status == "success")

/-- `Database.mark_processed` (src/db.py:97-106): `INSERT OR REPLACE INTO
processed_episodes ...` with `processed_at = datetime.now()`; the unique
constraint on `(episode_id, channel)` makes the replace drop every
conflicting row. -/
def Database.mark_processed (db : Database) (episode_id channel title output_path status : String) (now : Nat) : Database :=
  ⟨⟨episode_id, channel, title, now, status, output_path⟩ ::
      db.processed.filter (fun r => !(r.sameKey episode_id channel)),
    db.pending⟩

/-- `Database.is_pending` (src/db.py:137-144): `SELECT 1 FROM pending_episodes
WHERE episode_id = ? AND channel = ?`. -/
def Database.is_pending (db : Database) (episode_id channel : String) : Bool :=
  db.pending.any (fun r => r.sameKey episode_id channel)

/-- `Database.mark_pending` (src/db.py:146-158): `INSERT OR REPLACE INTO
pending_episodes ...` with `submitted_at = datetime.now()`. -/
def Database.mark_pending (db : Database) (episode_id channel title audio_url transcription_id : String)
    (now : Nat) (published : Option Nat) (duration : Option String) : Database :=
  ⟨db.processed,
    ⟨episode_id, channel, title, audio_url, transcription_id, now, published, duration⟩ ::
      db.pending.filter (fun r => !(r.sameKey episode_id channel))⟩

/-- `Database.get_pending` (src/db.py:160-192): all pending rows, optionally
`WHERE channel = ?`. -/
def Database.get_pending (db : Database) (channel : Option String) : List PendingRow :=
  match channel with
  | some ch => db.pending.filter (fun r => r.channel == ch)
  | none => db.pending

/-- `Database.remove_pending` (src/db.py:194-201): `DELETE FROM
pending_episodes WHERE episode_id = ? AND channel = ?`. -/
def Database.remove_pending (db : Database) (episode_id channel : String) : Database :=
  ⟨db.processed, db.pending.filter (fun r => !(r.sameKey episode_id channel))⟩

/-- The pending rows carrying a given identity (used to state uniqueness). -/
def Database.pendingRowsFor (db : Database) (episode_id channel : String) : List PendingRow :=
  db.pending.filter (fun r => r.sameKey episode_id channel)

/-- The processed rows carrying a given identity (used to state uniqueness). -/
def Database.processedRowsFor (db : Database) (episode_id channel : String) : List ProcessedRow :=
  db.processed.filter (fun r => r.sameKey episode_id channel)

/-- `Episode` (src/rss_parser.py:10-17), restricted to the fields the
submission step reads; `published` may be absent for malformed entries. -/
structure Episode where
  id : String
  title : String
  audio_url : String
  published : Option Nat
  duration : Option String
deriving DecidableEq

/-- Result of one per-episode submission step (src/submit.py): the two dedup
skips, a successful submission carrying the returned transcription id, and the
`except` branch around `submit_transcription`. -/
inductive SubmitOutcome where
  | skippedProcessed
  | skippedPending
  | submitted (transcription_id : String)
  | submitError
deriving DecidableEq

/-- The per-episode body shared by `process_single_rss` (src/submit.py:104-137)
and the inner loop of `process_config_file` (src/submit.py:159-189):
check `is_processed`, then `is_pending`, then call `submit_transcription`
(the oracle `ext`, taking the audio url and language; `none` = the call
raised) and only on success `mark_pending`. -/
def submitEpisode (ext : String → String → Option String) (episode : Episode)
    (channel language : String) (now : Nat) (db : Database) : SubmitOutcome × Database :=
  if db.is_processed episode.id channel then
    (.skippedProcessed, db)
  else if db.is_pending episode.id channel then
    (.skippedPending, db)
  else
    match ext episode.audio_url language with
    | none => (.submitError, db)
    | some transcription_id =>
        (.submitted transcription_id,
          db.mark_pending episode.id channel episode.title episode.audio_url
            transcription_id now episode.published episode.duration)

/-- `TranscriptSegment` (src/transcriber.py:10-16); times in seconds. -/
structure TranscriptSegment where
  start_time : ℚ
  end_time : ℚ
  text : String
  speaker : ℤ
deriving DecidableEq

/-- The status payload the poller reads (src/query.py:213-242): the
`status["status"]` string and the error message already extracted as
`status.get("properties", \x7b\x7d).get("error", \x7b\x7d).get("message", "Unknown")`. -/
structure StatusResponse where
  status : String
  errorMessage : String
deriving DecidableEq

/-- Oracle for the effectful calls made by the reconcile loop of
src/query.py `main`: `check_transcription_status` (`none` = raised),
`get_transcription_result` (`none` = raised), `save_output` (file I/O;
`none` = raised, `some p` = returned output path `p`), and
`delete_transcription` (`deleteRaises t = true` models `requests.delete`
raising for job `t`). -/
structure ExtService where
  check : String → Option StatusResponse
  getResult : String → Option (List TranscriptSegment)
  save : PendingRow → List TranscriptSegment → Option String
  deleteRaises : String → Bool

/-- What one iteration of the src/query.py `main` loop amounts to for a single
pending job: the branch taken determines which summary counter is bumped.
`errored` is the `except Exception` branch (src/query.py:253-255). -/
inductive ReconcileOutcome where
  | completed (output_path : String)
  | stillRunning
  | failed (reason : String)
  | errored
deriving DecidableEq

/-- Result of one loop iteration: the outcome, the database afterwards, and
the transcription ids for which `delete_transcription` was invoked. -/
structure ReconcileResult where
  outcome : ReconcileOutcome
  db : Database
  deleted : List String
deriving DecidableEq

/-- The body of the `for pending in pending_list` loop of src/query.py
`main` (lines 203-255), for one pending row `p`:
check status; on `"Succeeded"` fetch segments; with segments, `save_output`
then `mark_processed(..., 'success')`, `remove_pending`, `delete_transcription`;
with no segments, `mark_processed(..., 'failed')` and `remove_pending`;
on `"Failed"`, `mark_processed(..., 'failed')`, `remove_pending`,
`delete_transcription`; any other status is still running; any raise along
the way falls into the `except` branch with the database exactly as the
completed calls left it. -/
def reconcileOne (svc : ExtService) (p : PendingRow) (now : Nat) (db : Database) : ReconcileResult :=
  match svc.check p.transcription_id with
  | none => ⟨.errored, db, []⟩
  | some st =>
    if st.status == "Succeeded" then
      match svc.getResult p.transcription_id with
      | none => ⟨.errored, db, []⟩
      | some segments =>
        if !segments.isEmpty then
          match svc.save p segments with
          | none => ⟨.errored, db, []⟩
          | some output_path =>
            let db1 := db.mark_processed p.episode_id p.channel p.title output_path "success" now
            let db2 := db1.remove_pending p.episode_id p.channel
            if svc.deleteRaises p.transcription_id then
              ⟨.errored, db2, [p.transcription_id]⟩
            else
              ⟨.completed output_path, db2, [p.transcription_id]⟩
        else
          let db1 := db.mark_processed p.episode_id p.channel p.title "" "failed" now
          let db2 := db1.remove_pending p.episode_id p.channel
          ⟨.failed "No segments found", db2, []⟩
    else if st.status == "Failed" then
      let db1 := db.mark_processed p.episode_id p.channel p.title "" "failed" now
      let db2 := db1.remove_pending p.episode_id p.channel
      if svc.deleteRaises p.transcription_id then
        ⟨.errored, db2, [p.transcription_id]⟩
      else
        ⟨.failed st.errorMessage, db2, [p.transcription_id]⟩
    else
      ⟨.stillRunning, db, []⟩

/-- The three summary counters of src/query.py `main` (lines 199-201,
257-260).  There is no fourth counter. -/
structure PollCounts where
  completed : Nat
  still_running : Nat
  failed : Nat
deriving DecidableEq

/-- How one iteration's outcome is tallied in src/query.py `main`:
`completed += 1`, `still_running += 1`, `failed += 1` on a terminal failure,
and `failed += 1` again in the `except` branch (line 255). -/
def bumpCount (c : PollCounts) (o : ReconcileOutcome) : PollCounts :=
  match o with
  | .completed _ => ⟨c.completed + 1, c.still_running, c.failed⟩
  | .stillRunning => ⟨c.completed, c.still_running + 1, c.failed⟩
  | .failed _ => ⟨c.completed, c.still_running, c.failed + 1⟩
  | .errored => ⟨c.completed, c.still_running, c.failed + 1⟩

/-- The batch poll of src/query.py `main`: snapshot `db.get_pending(channel)`,
then fold the per-job step over it, threading the database and tallying the
counters. -/
def pollPending (svc : ExtService) (channelFilter : Option String) (now : Nat)
    (db : Database) : PollCounts × Database :=
  (db.get_pending channelFilter).foldl
    (fun acc p =>
      let r := reconcileOne svc p now acc.2
      (bumpCount acc.1 r.outcome, r.db))
    (⟨0, 0, 0⟩, db)

/-- States reachable from an empty store by completed submission steps and
reconcile steps. -/
inductive Reachable : Database → Prop where
  | init : Reachable ⟨[], []⟩
  | submit (ext : String → String → Option String) (episode : Episode)
      (channel language : String) (now : Nat) (db : Database) :
      Reachable db → Reachable (submitEpisode ext episode channel language now db).2
  | reconcile (svc : ExtService) (p : PendingRow) (now : Nat) (db : Database) :
      Reachable db → Reachable (reconcileOne svc p now db).db

/-- The exclusivity invariant of spec §3: no identity is simultaneously
pending and processed-with-status-success. -/
def Excl (db : Database) : Prop :=
  ∀ eid ch, ¬(db.is_pending eid ch = true ∧ db.is_processed eid ch = true)

/-- The characters removed by the first substitution of `sanitize_filename`
(src/utils.py:41): the regex class `[<>:"/\\|?*]`. -/
def illegalFilenameChars : List Char := ['<', '>', ':', '"', '/', '\\', '|', '?', '*']

/-- The second substitution of `sanitize_filename` (src/utils.py:43): the
regex class `[\x00-\x1f]`. -/
def isControlChar (c : Char) : Bool := c.toNat ≤ 0x1f

/-- The character set of Python's `strip(' .')` in src/utils.py:48. -/
def isSpaceOrDot (c : Char) : Bool := c == ' ' || c == '.'

/-- Python `str.strip(chars)` on a character list: drop the stripped
characters from both ends. -/
def pyStrip (p : Char → Bool) (cs : List Char) : List Char :=
  ((cs.dropWhile p).reverse.dropWhile p).reverse

/-- `sanitize_filename` (src/utils.py:30-49): delete the illegal characters,
delete the control characters, truncate to 200 characters (`name[:200]`),
strip leading/trailing spaces and dots, and fall back to `'untitled'` when the
result is empty (`name or 'untitled'`). -/
def sanitize_filename (name : String) : String :=
  let cs := name.data.filter (fun c => !illegalFilenameChars.contains c)
  let cs := cs.filter (fun c => !isControlChar c)
  let cs := cs.take 200
  let cs := pyStrip isSpaceOrDot cs
  if cs.isEmpty then "untitled" else String.mk cs

/-- Python's `f"..:02d.."` field for one time component: at least two digits,
zero-padded. -/
def pad2 (n : ℤ) : String :=
  if 0 ≤ n ∧ n < 10 then "0" ++ toString n else toString n

/-- Python `a % b` for `b > 0`: the representative of `a` in `[0, b)`. -/
def pyFmod (a b : ℚ) : ℚ := a - b * (Rat.floor (a / b) : ℚ)

/-- `format_time` (src/transcriber.py:19-24): `HH:MM:SS` from seconds, using
floor division and modulo exactly as the Python source
(`int(seconds // 3600)`, `int((seconds % 3600) // 60)`, `int(seconds % 60)`;
each modulo result is non-negative, so `int` truncation agrees with floor). -/
def format_time (seconds : ℚ) : String :=
  let hours : ℤ := Rat.floor (seconds / 3600)
  let minutes : ℤ := Rat.floor (pyFmod seconds 3600 / 60)
  let secs : ℤ := Rat.floor (pyFmod seconds 60)
  pad2 hours ++ ":" ++ pad2 minutes ++ ":" ++ pad2 secs

/-- `segments_to_markdown` (src/transcriber.py:163-173): one line per segment,
`[timestamp] **Speaker N**: text` when `seg.speaker` is truthy (non-zero),
`[timestamp] text` otherwise, joined by blank lines (`"\n\n".join`). -/
def segments_to_markdown (segments : List TranscriptSegment) : String :=
  let lines := segments.map (fun seg =>
    let timestamp := format_time seg.start_time
    let speaker_label := if seg.speaker ≠ 0 then "Speaker " ++ toString seg.speaker else ""
    if speaker_label ≠ "" then
      "[" ++ timestamp ++ "] **" ++ speaker_label ++ "**: " ++ seg.text
    else
      "[" ++ timestamp ++ "] " ++ seg.text)
  String.intercalate "\n\n" lines

/-- One element of the list built by `segments_to_json`
(src/transcriber.py:176-187); the Python dict keys `time`, `start`, `end`,
`speaker`, `text` become fields. -/
structure SegmentJson where
  time : String
  start : ℚ
  «end» : ℚ
  speaker : ℤ
  text : String
deriving DecidableEq

/-- `segments_to_json` (src/transcriber.py:176-187). -/
def segments_to_json (segments : List TranscriptSegment) : List SegmentJson :=
  segments.map (fun seg =>
    ⟨format_time seg.start_time, seg.start_time, seg.end_time, seg.speaker, seg.text⟩)

/-- `parse_duration` (src/query.py:100-117), the module-level ISO-8601
duration parser used by the poller.  Python's `float(...)` builtin is the
oracle `pyFloat` (`none` = `ValueError`); `hours, rest = s.split("H")` raises
unless the split yields exactly two parts, hence the two-element match;
`"H" in s` is character containment; the `S` branch replaces every `"S"`.
A `none` result models the Python call raising. -/
def parse_duration (pyFloat : String → Option ℚ) (duration_str : String) : Option ℚ :=
  if duration_str = "" ∨ ¬duration_str.startsWith "PT" then some 0
  else
    let rest0 := duration_str.drop 2
    let afterH : Option (ℚ × String) :=
      if rest0.contains 'H' then
        match rest0.splitOn "H" with
        | [hours, rest] => (pyFloat hours).map (fun h => (h * 3600, rest))
        | _ => none
      else some (0, rest0)
    afterH.bind (fun acc1 =>
      let afterM : Option (ℚ × String) :=
        if acc1.2.contains 'M' then
          match acc1.2.splitOn "M" with
          | [minutes, rest] => (pyFloat minutes).map (fun m => (acc1.1 + m * 60, rest))
          | _ => none
        else some acc1
      afterM.bind (fun acc2 =>
        if acc2.2.contains 'S' then
          (pyFloat (acc2.2.replace "S" "")).map (fun v => acc2.1 + v)
        else some acc2.1))

/-- `Transcriber._parse_duration` (src/transcriber.py:137-160), the method
used by the synchronous transcriber; same modelling conventions as
`parse_duration`, translated independently from its own source lines. -/
def Transcriber._parse_duration (pyFloat : String → Option ℚ) (duration_str : String) : Option ℚ :=
  if duration_str = "" ∨ ¬duration_str.startsWith "PT" then some 0
  else
    let rest0 := duration_str.drop 2
    let afterH : Option (ℚ × String) :=
      if rest0.contains 'H' then
        match rest0.splitOn "H" with
        | [hours, rest] => (pyFloat hours).map (fun h => (h * 3600, rest))
        | _ => none
      else some (0, rest0)
    afterH.bind (fun acc1 =>
      let afterM : Option (ℚ × String) :=
        if acc1.2.contains 'M' then
          match acc1.2.splitOn "M" with
          | [minutes, rest] => (pyFloat minutes).map (fun m => (acc1.1 + m * 60, rest))
          | _ => none
        else some acc1
      afterM.bind (fun acc2 =>
        if acc2.2.contains 'S' then
          (pyFloat (acc2.2.replace "S" "")).map (fun v => acc2.1 + v)
        else some acc2.1))

/-- The fixed segment list of spec §8's round-trip rendering property. -/
def demoSegments : List TranscriptSegment :=
  [⟨0, 5 / 2, "hello", 1⟩, ⟨5 / 2, 5, "world", 1⟩]

/-- A concrete episode used to instantiate hypotheses of the theorems below. -/
def demoEpisode : Episode := ⟨"ep1", "Title 1", "http://a/1.mp3", some 7, some "3600"⟩

/-- A concrete pending row used to instantiate hypotheses of the theorems
below. -/
def demoPendingRow : PendingRow :=
  ⟨"ep1", "chan", "Title 1", "http://a/1.mp3", "tid1", 0, some 7, some "3600"⟩

/-- A store holding exactly one pending job (`demoPendingRow`). -/
def demoDbPending : Database := ⟨[], [demoPendingRow]⟩

/-- A store holding exactly one processed row with status failed. -/
def demoDbFailed : Database :=
  ⟨[⟨"ep1", "chan", "Title 1", 3, "failed", ""⟩], []⟩

/-- An external service whose every call raises. -/
def demoSvcRaises : ExtService :=
  ⟨fun _ => none, fun _ => none, fun _ _ => none, fun _ => false⟩

/-! Toolkit lemmas about the store operations. -/

theorem sameKeyP_iff (r : ProcessedRow) (eid ch : String) :
    r.sameKey eid ch = true ↔ r.episode_id = eid ∧ r.channel = ch := by
  simp [ProcessedRow.sameKey]

theorem sameKeyQ_iff (r : PendingRow) (eid ch : String) :
    r.sameKey eid ch = true ↔ r.episode_id = eid ∧ r.channel = ch := by
  simp [PendingRow.sameKey]

theorem is_pending_iff (db : Database) (eid ch : String) :
    db.is_pending eid ch = true ↔ ∃ r ∈ db.pending, r.episode_id = eid ∧ r.channel = ch := by
  simp [Database.is_pending, List.any_eq_true, PendingRow.sameKey]

theorem is_processed_iff (db : Database) (eid ch : String) :
    db.is_processed eid ch = true ↔
      ∃ r ∈ db.processed, (r.episode_id = eid ∧ r.channel = ch) ∧ r.status = "success" := by
  simp [Database.is_processed, List.any_eq_true, ProcessedRow.sameKey, and_assoc]

theorem mem_pending_remove_pending (db : Database) (eid ch : String) (r : PendingRow) :
    r ∈ (db.remove_pending eid ch).pending ↔
      r ∈ db.pending ∧ ¬(r.episode_id = eid ∧ r.channel = ch) := by
  simp [Database.remove_pending, List.mem_filter, PendingRow.sameKey]
  tauto

theorem mem_pending_mark_pending (db : Database) (eid ch t u tid : String) (now : Nat)
    (pub : Option Nat) (dur : Option String) (r : PendingRow) :
    r ∈ (db.mark_pending eid ch t u tid now pub dur).pending ↔
      r = ⟨eid, ch, t, u, tid, now, pub, dur⟩ ∨
        (r ∈ db.pending ∧ ¬(r.episode_id = eid ∧ r.channel = ch)) := by
  simp [Database.mark_pending, List.mem_filter, PendingRow.sameKey]
  tauto

theorem mem_processed_mark_processed (db : Database) (eid ch t op st : String) (now : Nat)
    (r : ProcessedRow) :
    r ∈ (db.mark_processed eid ch t op st now).processed ↔
      r = ⟨eid, ch, t, now, st, op⟩ ∨
        (r ∈ db.processed ∧ ¬(r.episode_id = eid ∧ r.channel = ch)) := by
  simp [Database.mark_processed, List.mem_filter, ProcessedRow.sameKey]
  tauto

theorem is_pending_mark_processed (db : Database) (eid ch t op st : String) (now : Nat)
    (eid' ch' : String) :
    (db.mark_processed eid ch t op st now).is_pending eid' ch' = db.is_pending eid' ch' := rfl

theorem is_processed_mark_pending (db : Database) (eid ch t u tid : String) (now : Nat)
    (pub : Option Nat) (dur : Option String) (eid' ch' : String) :
    (db.mark_pending eid ch t u tid now pub dur).is_processed eid' ch' =
      db.is_processed eid' ch' := rfl

theorem is_processed_remove_pending (db : Database) (eid ch eid' ch' : String) :
    (db.remove_pending eid ch).is_processed eid' ch' = db.is_processed eid' ch' := rfl

theorem is_pending_remove_pending_self (db : Database) (eid ch : String) :
    (db.remove_pending eid ch).is_pending eid ch = false := by
  rw [Bool.eq_false_iff]
  intro h
  obtain ⟨r, hr, hk⟩ := (is_pending_iff _ _ _).mp h
  exact ((mem_pending_remove_pending db eid ch r).mp hr).2 hk

theorem is_pending_remove_pending_ne (db : Database) (eid ch eid' ch' : String)
    (h : ¬(eid' = eid ∧ ch' = ch)) :
    (db.remove_pending eid ch).is_pending eid' ch' = db.is_pending eid' ch' := by
  rcases hb : db.is_pending eid' ch' with _ | _
  · rw [Bool.eq_false_iff]
    intro h2
    obtain ⟨r, hr, hk⟩ := (is_pending_iff _ _ _).mp h2
    rw [Bool.eq_false_iff] at hb
    exact hb ((is_pending_iff _ _ _).mpr ⟨r, ((mem_pending_remove_pending db eid ch r).mp hr).1, hk⟩)
  · obtain ⟨r, hr, hk⟩ := (is_pending_iff _ _ _).mp hb
    refine (is_pending_iff _ _ _).mpr ⟨r, ?_, hk⟩
    refine (mem_pending_remove_pending db eid ch r).mpr ⟨hr, ?_⟩
    intro hk2
    exact h (by rw [← hk.1, ← hk.2, hk2.1, hk2.2]; exact ⟨rfl, rfl⟩)

theorem is_pending_mark_pending_self (db : Database) (eid ch t u tid : String) (now : Nat)
    (pub : Option Nat) (dur : Option String) :
    (db.mark_pending eid ch t u tid now pub dur).is_pending eid ch = true := by
  refine (is_pending_iff _ _ _).mpr ⟨⟨eid, ch, t, u, tid, now, pub, dur⟩, ?_, rfl, rfl⟩
  exact (mem_pending_mark_pending db eid ch t u tid now pub dur _).mpr (Or.inl rfl)

theorem is_pending_mark_pending_ne (db : Database) (eid ch t u tid : String) (now : Nat)
    (pub : Option Nat) (dur : Option String) (eid' ch' : String)
    (h : ¬(eid' = eid ∧ ch' = ch)) :
    (db.mark_pending eid ch t u tid now pub dur).is_pending eid' ch' =
      db.is_pending eid' ch' := by
  rcases hb : db.is_pending eid' ch' with _ | _
  · rw [Bool.eq_false_iff]
    intro h2
    obtain ⟨r, hr, hk⟩ := (is_pending_iff _ _ _).mp h2
    rcases (mem_pending_mark_pending db eid ch t u tid now pub dur r).mp hr with hnew | ⟨hold, _⟩
    · exact h (by rw [← hk.1, ← hk.2, hnew]; exact ⟨rfl, rfl⟩)
    · rw [Bool.eq_false_iff] at hb
      exact hb ((is_pending_iff _ _ _).mpr ⟨r, hold, hk⟩)
  · obtain ⟨r, hr, hk⟩ := (is_pending_iff _ _ _).mp hb
    refine (is_pending_iff _ _ _).mpr ⟨r, ?_, hk⟩
    refine (mem_pending_mark_pending db eid ch t u tid now pub dur r).mpr (Or.inr ⟨hr, ?_⟩)
    intro hk2
    exact h (by rw [← hk.1, ← hk.2, hk2.1, hk2.2]; exact ⟨rfl, rfl⟩)

theorem is_processed_mark_processed_self (db : Database) (eid ch t op st : String) (now : Nat) :
    (db.mark_processed eid ch t op st now).is_processed eid ch = (st == "success") := by
  rcases hs : st == "success" with _ | _
  · rw [Bool.eq_false_iff]
    intro h2
    obtain ⟨r, hr, hk, hsucc⟩ := (is_processed_iff _ _ _).mp h2
    rcases (mem_processed_mark_processed db eid ch t op st now r).mp hr with hnew | ⟨_, hne⟩
    · subst hnew
      rw [Bool.eq_false_iff] at hs
      exact hs (beq_iff_eq.mpr hsucc)
    · exact hne hk
  · refine (is_processed_iff _ _ _).mpr ⟨⟨eid, ch, t, now, st, op⟩, ?_, ⟨rfl, rfl⟩, ?_⟩
    · exact (mem_processed_mark_processed db eid ch t op st now _).mpr (Or.inl rfl)
    · exact beq_iff_eq.mp hs

theorem is_processed_mark_processed_ne (db : Database) (eid ch t op st : String) (now : Nat)
    (eid' ch' : String) (h : ¬(eid' = eid ∧ ch' = ch)) :
    (db.mark_processed eid ch t op st now).is_processed eid' ch' =
      db.is_processed eid' ch' := by
  rcases hb : db.is_processed eid' ch' with _ | _
  · rw [Bool.eq_false_iff]
    intro h2
    obtain ⟨r, hr, hk, hsucc⟩ := (is_processed_iff _ _ _).mp h2
    rcases (mem_processed_mark_processed db eid ch t op st now r).mp hr with hnew | ⟨hold, _⟩
    · exact h (by rw [← hk.1, ← hk.2, hnew]; exact ⟨rfl, rfl⟩)
    · rw [Bool.eq_false_iff] at hb
      exact hb ((is_processed_iff _ _ _).mpr ⟨r, hold, hk, hsucc⟩)
  · obtain ⟨r, hr, hk, hsucc⟩ := (is_processed_iff _ _ _).mp hb
    refine (is_processed_iff _ _ _).mpr ⟨r, ?_, hk, hsucc⟩
    refine (mem_processed_mark_processed db eid ch t op st now r).mpr (Or.inr ⟨hr, ?_⟩)
    intro hk2
    exact h (by rw [← hk.1, ← hk.2, hk2.1, hk2.2]; exact ⟨rfl, rfl⟩)

/-! Preservation of the exclusivity invariant. -/

theorem excl_resolve (db : Database) (eid ch t op st : String) (now : Nat) (h : Excl db) :
    Excl ((db.mark_processed eid ch t op st now).remove_pending eid ch) := by
  intro eid' ch' hc
  obtain ⟨hp, hs⟩ := hc
  by_cases hk : eid' = eid ∧ ch' = ch
  · obtain ⟨he, hch⟩ := hk
    subst he; subst hch
    rw [is_pending_remove_pending_self] at hp
    exact Bool.false_ne_true hp
  · rw [is_pending_remove_pending_ne _ _ _ _ _ hk, is_pending_mark_processed] at hp
    rw [is_processed_remove_pending, is_processed_mark_processed_ne _ _ _ _ _ _ _ _ _ hk] at hs
    exact h eid' ch' ⟨hp, hs⟩

theorem excl_submitEpisode (ext : String → String → Option String) (episode : Episode)
    (channel language : String) (now : Nat) (db : Database) (h : Excl db) :
    Excl (submitEpisode ext episode channel language now db).2 := by
  by_cases h1 : db.is_processed episode.id channel = true
  · simpa [submitEpisode, h1] using h
  · by_cases h2 : db.is_pending episode.id channel = true
    · simpa [submitEpisode, h1, h2] using h
    · cases hext : ext episode.audio_url language with
      | none => simpa [submitEpisode, h1, h2, hext] using h
      | some tid =>
        simp only [submitEpisode, h1, h2, hext, Bool.false_eq_true, if_false]
        intro eid' ch' hc
        obtain ⟨hp, hs⟩ := hc
        rw [is_processed_mark_pending] at hs
        by_cases hk : eid' = episode.id ∧ ch' = channel
        · obtain ⟨he, hch⟩ := hk
          subst he; subst hch
          exact h1 hs
        · rw [is_pending_mark_pending_ne _ _ _ _ _ _ _ _ _ _ _ hk] at hp
          exact h eid' ch' ⟨hp, hs⟩

theorem excl_reconcileOne (svc : ExtService) (p : PendingRow) (now : Nat) (db : Database)
    (h : Excl db) : Excl (reconcileOne svc p now db).db := by
  unfold reconcileOne
  cases hchk : svc.check p.transcription_id with
  | none => exact h
  | some st =>
    by_cases h1 : (st.status == "Succeeded") = true
    · simp only [h1, if_true]
      cases hres : svc.getResult p.transcription_id with
      | none => exact h
      | some segments =>
        by_cases h2 : (!segments.isEmpty) = true
        · simp only [h2, if_true]
          cases hsave : svc.save p segments with
          | none => exact h
          | some output_path =>
            by_cases h3 : svc.deleteRaises p.transcription_id = true
            · simp only [h3, if_true]
              exact excl_resolve db p.episode_id p.channel p.title output_path "success" now h
            · simp only [h3, Bool.false_eq_true, if_false]
              exact excl_resolve db p.episode_id p.channel p.title output_path "success" now h
        · simp only [h2, Bool.false_eq_true, if_false]
          exact excl_resolve db p.episode_id p.channel p.title "" "failed" now h
    · by_cases h4 : (st.status == "Failed") = true
      · simp only [h1, h4, Bool.false_eq_true, if_false, if_true]
        by_cases h3 : svc.deleteRaises p.transcription_id = true
        · simp only [h3, if_true]
          exact excl_resolve db p.episode_id p.channel p.title "" "failed" now h
        · simp only [h3, Bool.false_eq_true, if_false]
          exact excl_resolve db p.episode_id p.channel p.title "" "failed" now h
      · simpa [h1, h4] using h

theorem reachable_excl (db : Database) (h : Reachable db) : Excl db := by
  induction h with
  | init =>
    intro eid ch hc
    obtain ⟨hp, _⟩ := hc
    simp [Database.is_pending] at hp
  | submit ext episode channel language now db _ ih =>
    exact excl_submitEpisode ext episode channel language now db ih
  | reconcile svc p now db _ ih =>
    exact excl_reconcileOne svc p now db ih

/-! Uniqueness of the upserted rows. -/

theorem filter_filter_not {α : Type} (p : α → Bool) (l : List α) :
    (l.filter (fun a => !(p a))).filter p = [] := by
  induction l with
  | nil => rfl
  | cons a l ih =>
    by_cases h : p a = true
    · simp [List.filter_cons, h, ih]
    · simp [List.filter_cons, h, ih]

theorem filter_skip_filter_not {α : Type} (p q : α → Bool) (l : List α)
    (h : ∀ a, q a = true → p a = false) :
    (l.filter (fun a => !(p a))).filter q = l.filter q := by
  induction l with
  | nil => rfl
  | cons a l ih =>
    by_cases hq : q a = true
    · have hp : p a = false := h a hq
      simp [List.filter_cons, hp, hq, ih]
    · by_cases hp : p a = true
      · simp [List.filter_cons, hp, hq, ih]
      · simp [List.filter_cons, hp, hq, ih]

theorem pendingRowsFor_mark_pending_self (db : Database) (eid ch t u tid : String) (now : Nat)
    (pub : Option Nat) (dur : Option String) :
    (db.mark_pending eid ch t u tid now pub dur).pendingRowsFor eid ch =
      [⟨eid, ch, t, u, tid, now, pub, dur⟩] := by
  unfold Database.pendingRowsFor Database.mark_pending
  rw [List.filter_cons_of_pos (by simp [PendingRow.sameKey])]
  rw [filter_filter_not (fun r => r.sameKey eid ch) db.pending]

theorem processedRowsFor_mark_processed_self (db : Database) (eid ch t op st : String) (now : Nat) :
    (db.mark_processed eid ch t op st now).processedRowsFor eid ch = [⟨eid, ch, t, now, st, op⟩] := by
  unfold Database.processedRowsFor Database.mark_processed
  rw [List.filter_cons_of_pos (by simp [ProcessedRow.sameKey])]
  rw [filter_filter_not (fun r => r.sameKey eid ch) db.processed]

theorem processedRowsFor_mark_processed_ne (db : Database) (eid ch t op st : String) (now : Nat)
    (eid' ch' : String) (h : ¬(eid' = eid ∧ ch' = ch)) :
    (db.mark_processed eid ch t op st now).processedRowsFor eid' ch' =
      db.processedRowsFor eid' ch' := by
  unfold Database.processedRowsFor Database.mark_processed
  rw [List.filter_cons_of_neg (by
    simp only [sameKeyP_iff]
    intro hk
    exact h ⟨hk.1.symm, hk.2.symm⟩)]
  refine filter_skip_filter_not _ _ db.processed ?_
  intro r hq
  rw [sameKeyP_iff] at hq
  rw [← Bool.not_eq_true, sameKeyP_iff]
  intro hk
  exact h (by rw [← hq.1, ← hq.2, hk.1, hk.2]; exact ⟨rfl, rfl⟩)

theorem pendingRowsFor_remove_pending_self (db : Database) (eid ch : String) :
    (db.remove_pending eid ch).pendingRowsFor eid ch = [] := by
  unfold Database.pendingRowsFor Database.remove_pending
  rw [filter_filter_not (fun r => r.sameKey eid ch) db.pending]

/-- Claim C1: idempotent submission.  If the store already has a
processed-success record for `(episode.id, channel)` the submit step returns
the already-processed skip (checked first, before the pending check) with the
store untouched; else if a pending record exists it returns the
already-pending skip with the store untouched — in both cases for every
external-service oracle, i.e. without consulting the service.  And if a first
submit step returns `submitted`, the store holds exactly one pending record
for the identity and a second submit step for the same identity returns the
already-pending skip leaving the store unchanged. -/
theorem submit_idempotent_dedup (ext ext2 : String → String → Option String)
    (episode : Episode) (channel language language2 : String) (now now2 : Nat) (db : Database) :
    (db.is_processed episode.id channel = true →
      submitEpisode ext episode channel language now db = (.skippedProcessed, db)) ∧
    (db.is_processed episode.id channel = false → db.is_pending episode.id channel = true →
      submitEpisode ext episode channel language now db = (.skippedPending, db)) ∧
    (∀ tid, (submitEpisode ext episode channel language now db).1 = .submitted tid →
      ((submitEpisode ext episode channel language now db).2.pendingRowsFor
          episode.id channel).length = 1 ∧
      submitEpisode ext2 episode channel language2 now2
          (submitEpisode ext episode channel language now db).2 =
        (.skippedPending, (submitEpisode ext episode channel language now db).2)) := by
  refine ⟨?_, ?_, ?_⟩
  · intro h1
    simp [submitEpisode, h1]
  · intro h1 h2
    simp [submitEpisode, h1, h2]
  · intro tid hsub
    by_cases h1 : db.is_processed episode.id channel = true
    · simp [submitEpisode, h1] at hsub
    · by_cases h2 : db.is_pending episode.id channel = true
      · simp [submitEpisode, h1, h2] at hsub
      · cases hext : ext episode.audio_url language with
        | none => simp [submitEpisode, h1, h2, hext] at hsub
        | some tid' =>
          have hdb1 : (submitEpisode ext episode channel language now db).2 =
              db.mark_pending episode.id channel episode.title episode.audio_url
                tid' now episode.published episode.duration := by
            simp [submitEpisode, h1, h2, hext]
          rw [hdb1]
          constructor
          · rw [pendingRowsFor_mark_pending_self]
            rfl
          · have hp : (db.mark_pending episode.id channel episode.title episode.audio_url
                tid' now episode.published episode.duration).is_processed episode.id channel
                = false := by
              rw [is_processed_mark_pending]
              exact Bool.eq_false_iff.mpr h1
            have hq : (db.mark_pending episode.id channel episode.title episode.audio_url
                tid' now episode.published episode.duration).is_pending episode.id channel
                = true :=
              is_pending_mark_pending_self db episode.id channel episode.title
                episode.audio_url tid' now episode.published episode.duration
            simp [submitEpisode, hp, hq]

/-- Witness for C1 at a concrete input: submitting `demoEpisode` to an empty
store succeeds, leaves exactly one pending row for the identity, and an
immediate second submission is the already-pending skip. -/
theorem submit_idempotent_dedup_witness :
    ((submitEpisode (fun _ _ => some "tid1") demoEpisode "chan" "auto" 0 ⟨[], []⟩).2.pendingRowsFor
        demoEpisode.id "chan").length = 1 ∧
    submitEpisode (fun _ _ => some "tid9") demoEpisode "chan" "en-US" 1
        (submitEpisode (fun _ _ => some "tid1") demoEpisode "chan" "auto" 0 ⟨[], []⟩).2 =
      (.skippedPending, (submitEpisode (fun _ _ => some "tid1") demoEpisode "chan" "auto" 0 ⟨[], []⟩).2) :=
  (submit_idempotent_dedup (fun _ _ => some "tid1") (fun _ _ => some "tid9") demoEpisode
    "chan" "auto" "en-US" 0 1 ⟨[], []⟩).2.2 "tid1" (by decide)

/-- Claim C2: no partial state on submit failure.  If the external create call
raises, the submit step leaves the store exactly as it was (in particular no
pending record appears); conversely, whenever the submit step changes the
store at all, the external call returned a job handle and the outcome is
`submitted` with that handle. -/
theorem submit_no_partial_state (ext : String → String → Option String) (episode : Episode)
    (channel language : String) (now : Nat) (db : Database) :
    (ext episode.audio_url language = none →
      (submitEpisode ext episode channel language now db).2 = db) ∧
    ((submitEpisode ext episode channel language now db).2 ≠ db →
      ∃ tid, ext episode.audio_url language = some tid ∧
        (submitEpisode ext episode channel language now db).1 = .submitted tid) := by
  constructor
  · intro hext
    by_cases h1 : db.is_processed episode.id channel = true
    · simp [submitEpisode, h1]
    · by_cases h2 : db.is_pending episode.id channel = true
      · simp [submitEpisode, h1, h2]
      · simp [submitEpisode, h1, h2, hext]
  · intro hne
    by_cases h1 : db.is_processed episode.id channel = true
    · exact absurd (by simp [submitEpisode, h1]) hne
    · by_cases h2 : db.is_pending episode.id channel = true
      · exact absurd (by simp [submitEpisode, h1, h2]) hne
      · cases hext : ext episode.audio_url language with
        | none => exact absurd (by simp [submitEpisode, h1, h2, hext]) hne
        | some tid =>
          exact ⟨tid, rfl, by simp [submitEpisode, h1, h2, hext]⟩

/-- Witness for C2 at a concrete input: a raising external call on the store
that holds one unrelated pending job leaves the store unchanged. -/
theorem submit_no_partial_state_witness :
    (submitEpisode (fun _ _ => none) ⟨"ep2", "T2", "http://a/2.mp3", none, none⟩ "chan" "auto" 5
        demoDbPending).2 = demoDbPending :=
  (submit_no_partial_state (fun _ _ => none) ⟨"ep2", "T2", "http://a/2.mp3", none, none⟩
    "chan" "auto" 5 demoDbPending).1 rfl

/-- Claim C3: pending/processed-success exclusivity.  Every store reachable
from the empty store by submit steps and reconcile steps has each identity in
at most one of \x7bpending, processed-with-status-success\x7d; in particular no
identity is ever simultaneously in the pending table and in the processed
table with status success, including after any reconcile step resolves an
identity terminally. -/
theorem pending_processed_exclusive (db : Database) (h : Reachable db) :
    ∀ eid ch, ¬(db.is_pending eid ch = true ∧ db.is_processed eid ch = true) :=
  reachable_excl db h

/-- Witness for C3 at a concrete reachable store: the store obtained by one
successful submission of `demoEpisode` from the empty store. -/
theorem pending_processed_exclusive_witness :
    ¬((submitEpisode (fun _ _ => some "tid1") demoEpisode "chan" "auto" 0 ⟨[], []⟩).2.is_pending
        "ep1" "chan" = true ∧
      (submitEpisode (fun _ _ => some "tid1") demoEpisode "chan" "auto" 0 ⟨[], []⟩).2.is_processed
        "ep1" "chan" = true) :=
  pending_processed_exclusive _
    (Reachable.submit (fun _ _ => some "tid1") demoEpisode "chan" "auto" 0 ⟨[], []⟩ Reachable.init)
    "ep1" "chan"

/-- Claim C4: transient reconcile errors preserve pending state.  For every
pending job, if the status query raises, or the status is `Succeeded` and the
result fetch raises, or it returned non-empty segments and the output write
raises, the reconcile step returns the error outcome with the store exactly as
before — the pending record is untouched, no processed record is written, and
no remote-job deletion is attempted. -/
theorem reconcile_transient_error_frame (svc : ExtService) (p : PendingRow) (now : Nat)
    (db : Database) :
    (svc.check p.transcription_id = none →
      reconcileOne svc p now db = ⟨.errored, db, []⟩) ∧
    (∀ st, svc.check p.transcription_id = some st → st.status = "Succeeded" →
      svc.getResult p.transcription_id = none →
      reconcileOne svc p now db = ⟨.errored, db, []⟩) ∧
    (∀ st segments, svc.check p.transcription_id = some st → st.status = "Succeeded" →
      svc.getResult p.transcription_id = some segments → segments.isEmpty = false →
      svc.save p segments = none →
      reconcileOne svc p now db = ⟨.errored, db, []⟩) := by
  refine ⟨?_, ?_, ?_⟩
  · intro hchk
    simp [reconcileOne, hchk]
  · intro st hchk hst hres
    rw [reconcileOne, hchk]
    simp [hst, hres]
  · intro st segments hchk hst hres hne hsave
    rw [reconcileOne, hchk]
    simp [hst, hres, hne, hsave]

/-- Witness for C4 at a concrete input: the all-raising service leaves the
one-job store untouched and deletes nothing. -/
theorem reconcile_transient_error_frame_witness :
    reconcileOne demoSvcRaises demoPendingRow 9 demoDbPending = ⟨.errored, demoDbPending, []⟩ :=
  (reconcile_transient_error_frame demoSvcRaises demoPendingRow 9 demoDbPending).1 rfl

/-- Claim C5: failed outcomes are non-terminal for dedup.  `is_processed` is
true exactly when some processed row for the identity has status success;
consequently, when every processed row for the identity has status failed and
the identity is not pending, the submit step proceeds past both dedup checks
and attempts a fresh submission — its outcome is decided by the external
create call alone. -/
theorem failed_is_resubmittable (db : Database) (episode : Episode)
    (channel language : String) (ext : String → String → Option String) (now : Nat) :
    (∀ eid ch, db.is_processed eid ch = true ↔
      ∃ r ∈ db.processed, (r.episode_id = eid ∧ r.channel = ch) ∧ r.status = "success") ∧
    ((∀ r ∈ db.processed, r.episode_id = episode.id → r.channel = channel →
        r.status = "failed") →
      db.is_pending episode.id channel = false →
      (submitEpisode ext episode channel language now db).1 =
        match ext episode.audio_url language with
        | some tid => .submitted tid
        | none => .submitError) := by
  constructor
  · intro eid ch
    exact is_processed_iff db eid ch
  · intro hfail hpend
    have h1 : db.is_processed episode.id channel = false := by
      rw [Bool.eq_false_iff]
      intro h
      obtain ⟨r, hr, hk, hsucc⟩ := (is_processed_iff db episode.id channel).mp h
      have := hfail r hr hk.1 hk.2
      rw [this] at hsucc
      exact absurd hsucc (by decide)
    cases hext : ext episode.audio_url language with
    | none => simp [submitEpisode, h1, hpend, hext]
    | some tid => simp [submitEpisode, h1, hpend, hext]

/-- Witness for C5 at a concrete input: the store whose only processed row for
the identity is failed lets a fresh submission through. -/
theorem failed_is_resubmittable_witness :
    (submitEpisode (fun _ _ => some "tid2") demoEpisode "chan" "auto" 4 demoDbFailed).1 =
      match (fun _ _ => some "tid2" : String → String → Option String)
          demoEpisode.audio_url "auto" with
      | some tid => .submitted tid
      | none => .submitError :=
  (failed_is_resubmittable demoDbFailed demoEpisode "chan" "auto"
    (fun _ _ => some "tid2") 4).2 (by decide) (by decide)

/-- Claim C6: `mark_processed` frames the pending table.  It leaves the
pending table identical (in particular any pending row with the same
identity survives), replaces exactly the processed rows of the written
identity by the single new row stamped `processed_at = now`, and leaves the
processed rows of every other identity unchanged; pending rows are removed
only by `remove_pending`, which leaves the processed table identical and
deletes exactly the rows of its identity. -/
theorem mark_processed_frames_pending (db : Database) (eid ch t op st : String) (now : Nat) :
    ((db.mark_processed eid ch t op st now).pending = db.pending) ∧
    ((db.mark_processed eid ch t op st now).processedRowsFor eid ch =
      [⟨eid, ch, t, now, st, op⟩]) ∧
    (∀ eid' ch', ¬(eid' = eid ∧ ch' = ch) →
      (db.mark_processed eid ch t op st now).processedRowsFor eid' ch' =
        db.processedRowsFor eid' ch') ∧
    ((db.remove_pending eid ch).processed = db.processed) ∧
    ((db.remove_pending eid ch).pendingRowsFor eid ch = []) := by
  refine ⟨rfl, processedRowsFor_mark_processed_self db eid ch t op st now, ?_, rfl,
    pendingRowsFor_remove_pending_self db eid ch⟩
  intro eid' ch' h
  exact processedRowsFor_mark_processed_ne db eid ch t op st now eid' ch' h

/-- Witness for C6 at a concrete input: marking the demo identity processed on
the one-pending-job store keeps its pending row and frames the other
identity's processed rows. -/
theorem mark_processed_frames_pending_witness :
    ((demoDbPending.mark_processed "ep1" "chan" "Title 1" "/o.md" "success" 6).pending =
      demoDbPending.pending) ∧
    (demoDbPending.mark_processed "ep1" "chan" "Title 1" "/o.md" "success" 6).processedRowsFor
      "ep9" "chan" = demoDbPending.processedRowsFor "ep9" "chan" :=
  ⟨(mark_processed_frames_pending demoDbPending "ep1" "chan" "Title 1" "/o.md" "success" 6).1,
    (mark_processed_frames_pending demoDbPending "ep1" "chan" "Title 1" "/o.md" "success" 6).2.2.1
      "ep9" "chan" (by decide)⟩

/-! The batch poll's counters. -/

theorem poll_fold_sum (svc : ExtService) (now : Nat) (jobs : List PendingRow) :
    ∀ (c : PollCounts) (db : Database),
      (jobs.foldl (fun acc p =>
          let r := reconcileOne svc p now acc.2
          (bumpCount acc.1 r.outcome, r.db)) (c, db)).1.completed +
        (jobs.foldl (fun acc p =>
          let r := reconcileOne svc p now acc.2
          (bumpCount acc.1 r.outcome, r.db)) (c, db)).1.still_running +
        (jobs.foldl (fun acc p =>
          let r := reconcileOne svc p now acc.2
          (bumpCount acc.1 r.outcome, r.db)) (c, db)).1.failed =
      c.completed + c.still_running + c.failed + jobs.length := by
  induction jobs with
  | nil => intro c db; simp
  | cons p jobs ih =>
    intro c db
    rw [List.foldl_cons]
    show (jobs.foldl (fun acc p =>
          let r := reconcileOne svc p now acc.2
          (bumpCount acc.1 r.outcome, r.db))
        (bumpCount c (reconcileOne svc p now db).outcome,
          (reconcileOne svc p now db).db)).1.completed +
      (jobs.foldl (fun acc p =>
          let r := reconcileOne svc p now acc.2
          (bumpCount acc.1 r.outcome, r.db))
        (bumpCount c (reconcileOne svc p now db).outcome,
          (reconcileOne svc p now db).db)).1.still_running +
      (jobs.foldl (fun acc p =>
          let r := reconcileOne svc p now acc.2
          (bumpCount acc.1 r.outcome, r.db))
        (bumpCount c (reconcileOne svc p now db).outcome,
          (reconcileOne svc p now db).db)).1.failed =
      c.completed + c.still_running + c.failed + (p :: jobs).length
    rw [ih]
    cases (reconcileOne svc p now db).outcome <;> simp [bumpCount] <;> omega

/-- Claim C7, as stated, is false of the code: the summary of the batch poll
has only three counters — completed, still running, failed — and a job whose
reconciliation raised is tallied into `failed` (src/query.py:253-255), not
into a separate errored counter.  Concretely, on a store with one pending job
and a service whose status query raises, the per-job outcome is the error
outcome yet the final counters read completed 0, still-running 0, failed 1. -/
theorem poll_counts_counterexample :
    (reconcileOne demoSvcRaises demoPendingRow 1 demoDbPending).outcome = .errored ∧
    (pollPending demoSvcRaises none 1 demoDbPending).1 = ⟨0, 0, 1⟩ := by
  constructor
  · rfl
  · rfl

/-- Claim C7, amended: the batch poll iterates every pending job (optionally
restricted to one channel), reconciles each independently so that every job
contributes exactly one tally and no job's error aborts the others — the
three counters always sum to the number of polled jobs — and reports three
aggregate counts, completed, still-running and failed, where a job that
raised a transient error is tallied into `failed` exactly like a terminal
failure. -/
theorem poll_counts_amended (svc : ExtService) (channelFilter : Option String) (now : Nat)
    (db : Database) :
    ((pollPending svc channelFilter now db).1.completed +
      (pollPending svc channelFilter now db).1.still_running +
      (pollPending svc channelFilter now db).1.failed =
        (db.get_pending channelFilter).length) ∧
    (∀ c : PollCounts, bumpCount c .errored = ⟨c.completed, c.still_running, c.failed + 1⟩) ∧
    (∀ (c : PollCounts) (reason : String),
      bumpCount c (.failed reason) = ⟨c.completed, c.still_running, c.failed + 1⟩) := by
  refine ⟨?_, fun c => rfl, fun c reason => rfl⟩
  unfold pollPending
  rw [poll_fold_sum svc now (db.get_pending channelFilter) ⟨0, 0, 0⟩ db]
  simp

/-! Properties of `pyStrip` and the sanitizer. -/

theorem dropWhile_head_not {α : Type} (p : α → Bool) (l : List α) (c : α)
    (h : (l.dropWhile p).head? = some c) : p c = false := by
  induction l with
  | nil => simp [List.dropWhile] at h
  | cons a l ih =>
    rw [List.dropWhile_cons] at h
    by_cases hp : p a = true
    · rw [if_pos hp] at h
      exact ih h
    · rw [if_neg hp] at h
      simp only [List.head?_cons, Option.some.injEq] at h
      subst h
      exact Bool.eq_false_iff.mpr hp

theorem dropWhile_getLast?_of_ne_nil {α : Type} (p : α → Bool) (l : List α)
    (h : l.dropWhile p ≠ []) : (l.dropWhile p).getLast? = l.getLast? := by
  induction l with
  | nil => simp [List.dropWhile] at h
  | cons a l ih =>
    rw [List.dropWhile_cons] at h ⊢
    by_cases hp : p a = true
    · rw [if_pos hp] at h ⊢
      rw [ih h]
      cases l with
      | nil => simp [List.dropWhile] at h
      | cons b l' => rw [List.getLast?_cons_cons]
    · rw [if_neg hp]

theorem pyStrip_subset (p : Char → Bool) (cs : List Char) (c : Char)
    (h : c ∈ pyStrip p cs) : c ∈ cs := by
  unfold pyStrip at h
  rw [List.mem_reverse] at h
  have h2 := (List.dropWhile_sublist p).subset h
  rw [List.mem_reverse] at h2
  exact (List.dropWhile_sublist p).subset h2

theorem pyStrip_length_le (p : Char → Bool) (cs : List Char) :
    (pyStrip p cs).length ≤ cs.length := by
  unfold pyStrip
  rw [List.length_reverse]
  calc ((cs.dropWhile p).reverse.dropWhile p).length
      ≤ (cs.dropWhile p).reverse.length := (List.dropWhile_sublist p).length_le
    _ = (cs.dropWhile p).length := List.length_reverse _
    _ ≤ cs.length := (List.dropWhile_sublist p).length_le

theorem pyStrip_head_not (p : Char → Bool) (cs : List Char) (c : Char)
    (h : (pyStrip p cs).head? = some c) : p c = false := by
  unfold pyStrip at h
  rw [List.head?_reverse] at h
  have hne : (cs.dropWhile p).reverse.dropWhile p ≠ [] := by
    intro e
    rw [e] at h
    simp at h
  rw [dropWhile_getLast?_of_ne_nil p _ hne, List.getLast?_reverse] at h
  exact dropWhile_head_not p cs c h

theorem pyStrip_getLast_not (p : Char → Bool) (cs : List Char) (c : Char)
    (h : (pyStrip p cs).getLast? = some c) : p c = false := by
  unfold pyStrip at h
  rw [List.getLast?_reverse] at h
  exact dropWhile_head_not p _ c h

theorem string_mk_ne_empty (cs : List Char) (h : cs.isEmpty = false) : String.mk cs ≠ "" := by
  intro e
  cases cs with
  | nil => simp at h
  | cons a l =>
    have : (a :: l : List Char) = [] := congrArg String.data e
    exact absurd this (by simp)

/-- Claim C8: filename sanitization.  For every input title the sanitizer's
output contains none of the characters `<>:"/\|?*` and no control characters,
is at most 200 characters long, is non-empty, and neither starts nor ends
with a space or a dot (the characters Python's `strip(' .')` removes; every
other ASCII whitespace character is a control character and is removed
everywhere).  Concretely, the title `Test: Episode "01" <Special>` sanitizes
to `Test Episode 01 Special`, and an input consisting entirely of illegal
characters sanitizes to the fixed placeholder `untitled`. -/
theorem sanitize_filename_safe :
    (∀ name : String,
      sanitize_filename name ≠ "" ∧
      (∀ c ∈ (sanitize_filename name).data,
        illegalFilenameChars.contains c = false ∧ isControlChar c = false) ∧
      (sanitize_filename name).data.length ≤ 200 ∧
      (∀ c, (sanitize_filename name).data.head? = some c → isSpaceOrDot c = false) ∧
      (∀ c, (sanitize_filename name).data.getLast? = some c → isSpaceOrDot c = false)) ∧
    sanitize_filename "Test: Episode \"01\" <Special>" = "Test Episode 01 Special" ∧
    sanitize_filename "<>:\"/\\|?*" = "untitled" := by
  refine ⟨?_, by decide, by decide⟩
  intro name
  simp only [sanitize_filename]
  split
  · refine ⟨by decide, by decide, by decide, ?_, ?_⟩
    · intro c hc
      have hu : ("untitled" : String).data.head? = some 'u' := rfl
      rw [hu, Option.some.injEq] at hc
      subst hc
      decide
    · intro c hc
      have hd : ("untitled" : String).data.getLast? = some 'd' := rfl
      rw [hd, Option.some.injEq] at hc
      subst hc
      decide
  · next h =>
    refine ⟨string_mk_ne_empty _ (Bool.eq_false_iff.mpr h), ?_, ?_, ?_, ?_⟩
    · intro c hc
      have h3 := pyStrip_subset isSpaceOrDot _ c hc
      have h4 := List.take_subset 200 _ h3
      rw [List.mem_filter] at h4
      obtain ⟨h5, h6⟩ := h4
      rw [List.mem_filter] at h5
      obtain ⟨_, h7⟩ := h5
      constructor
      · cases hb : illegalFilenameChars.contains c with
        | false => rfl
        | true => rw [hb] at h7; exact absurd h7 (by decide)
      · cases hb : isControlChar c with
        | false => rfl
        | true => rw [hb] at h6; exact absurd h6 (by decide)
    · exact le_trans (pyStrip_length_le isSpaceOrDot _) (List.length_take_le 200 _)
    · intro c hc
      exact pyStrip_head_not isSpaceOrDot _ c hc
    · intro c hc
      exact pyStrip_getLast_not isSpaceOrDot _ c hc

/-- Witness for C8 at a concrete input: instantiating the universal part at
the spec's example title. -/
theorem sanitize_filename_safe_witness :
    sanitize_filename "Test: Episode \"01\" <Special>" ≠ "" ∧
    isSpaceOrDot 'T' = false :=
  ⟨(sanitize_filename_safe.1 "Test: Episode \"01\" <Special>").1,
    (sanitize_filename_safe.1 "Test: Episode \"01\" <Special>").2.2.2.1 'T' (by decide)⟩

/-! Concrete evaluation of the renderers. -/

theorem rat_floor_eq_intFloor (q : ℚ) : Rat.floor q = ⌊q⌋ := rfl

theorem format_time_zero : format_time 0 = "00:00:00" := by
  simp only [format_time, pyFmod, rat_floor_eq_intFloor]
  norm_num
  decide

theorem format_time_five_halves : format_time (5 / 2) = "00:00:02" := by
  simp only [format_time, pyFmod, rat_floor_eq_intFloor]
  norm_num
  decide

/-- Claim C9: round-trip rendering.  On the fixed segment list
`[⟨0, 2.5, "hello", 1⟩, ⟨2.5, 5, "world", 1⟩]` the JSON renderer produces a
list of the same length as the input (2), and the markdown renderer produces
exactly the two lines carrying "hello" then "world" in order, with their
start timestamps formatted `00:00:00` and `00:00:02`. -/
theorem round_trip_rendering :
    (segments_to_json demoSegments).length = demoSegments.length ∧
    demoSegments.length = 2 ∧
    segments_to_markdown demoSegments =
      "[00:00:00] **Speaker 1**: hello\n\n[00:00:02] **Speaker 1**: world" := by
  refine ⟨rfl, rfl, ?_⟩
  simp only [segments_to_markdown, demoSegments, List.map_cons, List.map_nil]
  rw [format_time_zero, format_time_five_halves]
  decide

/-- Claim C10: the two ISO-8601 duration parsers are one function.  For every
`float()` oracle and every input string the module-level `parse_duration` of
the poller and `Transcriber._parse_duration` of the synchronous transcriber
agree, and both return 0.0 on any string that is empty or does not start with
`PT`. -/
theorem parse_duration_unified (pyFloat : String → Option ℚ) (s : String) :
    parse_duration pyFloat s = Transcriber._parse_duration pyFloat s ∧
    ((s = "" ∨ ¬s.startsWith "PT") →
      parse_duration pyFloat s = some 0 ∧
      Transcriber._parse_duration pyFloat s = some 0) := by
  constructor
  · rfl
  · intro h
    constructor
    · simp only [parse_duration]
      rw [if_pos h]
    · simp only [Transcriber._parse_duration]
      rw [if_pos h]

/-- Witness for C10 at a concrete input: the empty string parses to 0 under
both parsers. -/
theorem parse_duration_unified_witness :
    parse_duration (fun _ => none) "" = some 0 ∧
    Transcriber._parse_duration (fun _ => none) "" = some 0 :=
  (parse_duration_unified (fun _ => none) "").2 (Or.inl rfl)
